import Mathlib

/-
Verification development for the go-vector-logger repository
(scor2k/go-vector-logger, file logger.go, v0.8.0 with the mutex-guarded
connection manager, idle monitor and Close).

The Go code is shallowly embedded: the logger's mutable fields become a
`LoggerState` record, the fallible external world (net.Dial outcomes,
write outcomes, the wall clock) becomes an explicit `SendEnv` oracle, and
every externally visible action of a call is recorded in an event trace
(`Ev`).  Transport handles are modelled by natural-number identifiers
handed out by a `nextId` counter; closed handles are recorded in `closed`.
-/

namespace GoVectorLogger

/-! ## Log level constants (logger.go lines 15-21) -/

def DEBUG : String := "DEBUG"

def INFO : String := "INFO"

def WARN : String := "WARN"

def ERROR : String := "ERROR"

def FATAL : String := "FATAL"

/-- The five leveled emit entry points of the logger
(Debug/Info/Warn/Error/Fatal and their `f`/`Error` variants share the
same per-severity guard, so one constructor per severity suffices). -/
inductive Sev where
  | debug
  | info
  | warn
  | error
  | fatal
deriving DecidableEq

/-- The level string each severity's methods pass to `sendMessage`. -/
def Sev.str : Sev → String
  | .debug => DEBUG
  | .info => INFO
  | .warn => WARN
  | .error => ERROR
  | .fatal => FATAL

/-- Spec-side position of each severity in the total order
DEBUG < INFO < WARN < ERROR < FATAL. -/
def sevIdx : Sev → Nat
  | .debug => 0
  | .info => 1
  | .warn => 2
  | .error => 3
  | .fatal => 4

/-- The emission guard of each severity's methods, translated from the
source: `Debug` returns early unless `l.Level == "DEBUG"` (line 148),
`Info` returns early when `l.Level` is `"ERROR"` or `"WARN"` (line 164),
`Warn` returns early when `l.Level` is `"ERROR"` (line 180), and
`Error`/`Fatal` have no guard (lines 192, 203). -/
def methodEmits (v : Sev) (lvl : String) : Bool :=
  match v with
  | .debug => lvl == DEBUG
  | .info => !(lvl == ERROR || lvl == WARN)
  | .warn => !(lvl == ERROR)
  | .error => true
  | .fatal => true

/-! ## Timestamps (logger.go line 348)

`sendMessage` stamps `time.Now().UTC().Format("2006-01-02T15:04:05.00Z")`.
The Go layout chunk `.00` prints the fractional second truncated to two
decimal digits (hundredths of a second); the trailing `Z` is a literal. -/

def pad2 (n : Nat) : String :=
  if n < 10 then "0" ++ toString n else toString n

def pad4 (n : Nat) : String :=
  if n < 10 then "000" ++ toString n
  else if n < 100 then "00" ++ toString n
  else if n < 1000 then "0" ++ toString n
  else toString n

/-- The Go layout "2006-01-02T15:04:05.00Z" applied to a UTC instant whose
sub-second part is `ms` milliseconds: the `.00` chunk keeps `ms / 10`
(truncation to hundredths), zero-padded to two digits. -/
def formatTimestampMs (y mo d h mi s ms : Nat) : String :=
  pad4 y ++ "-" ++ pad2 mo ++ "-" ++ pad2 d ++ "T" ++ pad2 h ++ ":"
    ++ pad2 mi ++ ":" ++ pad2 s ++ "." ++ pad2 (ms / 10) ++ "Z"

/-- A UTC wall-clock reading, split into the components the layout uses. -/
structure Clock where
  year : Nat
  month : Nat
  day : Nat
  hour : Nat
  minute : Nat
  sec : Nat
  ms : Nat
deriving DecidableEq

def Clock.format (ck : Clock) : String :=
  formatTimestampMs ck.year ck.month ck.day ck.hour ck.minute ck.sec ck.ms

/-! ## The Message record (logger.go lines 121-126) -/

structure Message where
  timestamp : String
  application : String
  level : String
  message : String
deriving DecidableEq

/-! ## JSON encoding (logger.go lines 265-269: json.NewEncoder(buf).Encode)

Go's encoder writes the object followed by one newline byte.  Its string
escaping (with the encoder's default HTML escaping) passes bytes >= 0x20
through except `"` `\` `<` `>` `&`, rewrites `\n` `\r` `\t` and the other
control bytes to backslash escapes, and escapes U+2028/U+2029. -/

def hexChars : List Char :=
  ['0', '1', '2', '3', '4', '5', '6', '7']
    ++ ['8', '9', 'a', 'b', 'c', 'd', 'e', 'f']

def hexDigit (n : Nat) : Char :=
  hexChars.getD n '0'

def escChar (c : Char) : List Char :=
  if c = '"' then ['\\', '"']
  else if c = '\\' then ['\\', '\\']
  else if c = '\n' then ['\\', 'n']
  else if c = '\r' then ['\\', 'r']
  else if c = '\t' then ['\\', 't']
  else if c.toNat < 32 then
    ['\\', 'u', '0', '0', hexDigit (c.toNat / 16), hexDigit (c.toNat % 16)]
  else if c = '<' ∨ c = '>' ∨ c = '&' then
    ['\\', 'u', '0', '0', hexDigit (c.toNat / 16), hexDigit (c.toNat % 16)]
  else if c = ' ' ∨ c = ' ' then
    ['\\', 'u', '2', '0', '2', hexDigit (c.toNat % 16)]
  else [c]

def jsonEscapeList : List Char → List Char
  | [] => []
  | c :: rest => escChar c ++ jsonEscapeList rest

/-- The characters of the marshalled JSON object, in the struct's field
order (timestamp, application, level, message). -/
def encodeJSONObjectChars (m : Message) : List Char :=
  "\x7b\"timestamp\":\"".data ++ jsonEscapeList m.timestamp.data
    ++ "\",\"application\":\"".data ++ jsonEscapeList m.application.data
    ++ "\",\"level\":\"".data ++ jsonEscapeList m.level.data
    ++ "\",\"message\":\"".data ++ jsonEscapeList m.message.data
    ++ "\"\x7d".data

def encodeJSONObject (m : Message) : String :=
  ⟨encodeJSONObjectChars m⟩

/-- What one `Encode(msg)` call leaves in the buffer: the JSON object plus
the encoder's single trailing newline. -/
def encodeMessage (m : Message) : String :=
  ⟨encodeJSONObjectChars m ++ ['\n']⟩

/-! ## Events and logger state -/

/-- Externally visible actions of a call, in program order.  `dial` is a
call to `establishConnection`, `closeConn` a `conn.Close()`, `netWrite`
a `WriteTo` on the network connection (payload included), `sinkWrite`
a `WriteTo` on the caller-supplied redirect writer, `stdout` the
human-readable mirror line, `diag` a stderr diagnostic, `stopSignal`
the `close(stopChan)`, `joinMonitor` the `wg.Wait()`, and `procExit`
an `os.Exit`. -/
inductive Ev where
  | stdout
  | dial (ok : Bool)
  | closeConn (id : Nat)
  | netWrite (id : Nat) (payload : String) (ok : Bool)
  | sinkWrite (payload : String) (ok : Bool)
  | diag
  | stopSignal
  | joinMonitor
  | procExit (code : Nat)
deriving DecidableEq

/-- The mutable fields of `VectorLogger` (logger.go lines 30-42), with the
transport handle abstracted to an id: `conn` holds the id of the live
handle, `nextId` is the supply of fresh ids, `closed` records every id
whose handle has been `Close()`d.  `writerSet` stands for
`Options.Writer != nil`, `stopChan` for `stopChan != nil`. -/
structure LoggerState where
  application : String
  level : String
  vectorHost : String
  vectorPort : Int
  writerSet : Bool
  alsoPrintMessages : Bool
  conn : Option Nat
  lastActivityTime : Int
  timeoutDuration : Int
  stopChan : Bool
  nextId : Nat
  closed : List Nat
deriving DecidableEq

/-- The external world a single call observes: the wall clock (as an
instant `now` for idle arithmetic and as split `clock` components for the
timestamp), and oracles giving the outcome of the n-th dial and of the
n-th write attempted during the call. -/
structure SendEnv where
  now : Int
  clock : Clock
  dialOk : Nat → Bool
  writeOk : Nat → Bool

def oneMinute : Int := 60 * 1000000000

/-! ## send (logger.go lines 215-321)

`send` runs under the mutex.  The translation below follows the source's
control flow; the stdout mirror (line 221), the re-check `l.conn == nil`
at line 253 (unreachable: both dial-failure paths return before it) and
the impossibility of a marshal error for a string-only struct are noted
in place. -/

/-- Lines 264-320: encode the record and write it, with the write-failure
recovery of lines 272-314.  `c` is the id of the live connection, `d` the
number of dials this `send` call has already performed, `acc` the events
so far.  On write failure (network mode): close and null the handle
(276-279), one fresh dial (281); on dial failure a diagnostic and return
(282-286); on success a freshly encoded retry buffer (292-297) written
once (298); if that also fails, a diagnostic and close-and-null (299-306);
successful writes refresh `lastActivityTime` (309, 317-320). -/
def writePhase (env : SendEnv) (st : LoggerState) (msg : Message) (c : Nat)
    (d : Nat) (acc : List Ev) : LoggerState × List Ev :=
  if env.writeOk 0 then
    ({ st with lastActivityTime := env.now },
      acc ++ [.netWrite c (encodeMessage msg) true])
  else
    let st2 := { st with conn := none, closed := c :: st.closed }
    if env.dialOk d then
      let c2 := st2.nextId
      let st3 := { st2 with conn := some c2, nextId := c2 + 1, lastActivityTime := env.now }
      if env.writeOk 1 then
        ({ st3 with lastActivityTime := env.now },
          acc ++ [.netWrite c (encodeMessage msg) false, .closeConn c,
            .dial true, .netWrite c2 (encodeMessage msg) true])
      else
        ({ st3 with conn := none, closed := c2 :: st3.closed },
          acc ++ [.netWrite c (encodeMessage msg) false, .closeConn c,
            .dial true, .netWrite c2 (encodeMessage msg) false, .diag,
            .closeConn c2])
    else
      (st2, acc ++ [.netWrite c (encodeMessage msg) false, .closeConn c,
        .dial false, .diag])

/-- Lines 215-321 of logger.go.  Writer mode skips all connection logic
(the write-failure branch at line 274 sees `Options.Writer != nil` and
only emits the diagnostic of line 312); with no writer and no host the
call returns at line 260; otherwise lines 228-251 ensure a live,
non-idle connection before the write phase. -/
def sendGo (env : SendEnv) (st : LoggerState) (msg : Message) :
    LoggerState × List Ev :=
  let ev0 : List Ev := if st.alsoPrintMessages then [.stdout] else []
  if st.writerSet then
    if env.writeOk 0 then
      (st, ev0 ++ [.sinkWrite (encodeMessage msg) true])
    else
      (st, ev0 ++ [.sinkWrite (encodeMessage msg) false, .diag])
  else if st.vectorHost = "" then
    (st, ev0)
  else
    match st.conn with
    | none =>
      if env.dialOk 0 then
        let c := st.nextId
        let st1 := { st with conn := some c, nextId := c + 1, lastActivityTime := env.now }
        writePhase env st1 msg c 1 (ev0 ++ [.dial true])
      else
        (st, ev0 ++ [.dial false, .diag])
    | some c =>
      if env.now - st.lastActivityTime > st.timeoutDuration then
        let stc := { st with conn := none, closed := c :: st.closed }
        if env.dialOk 0 then
          let c2 := stc.nextId
          let st1 := { stc with conn := some c2, nextId := c2 + 1, lastActivityTime := env.now }
          writePhase env st1 msg c2 1 (ev0 ++ [.closeConn c, .dial true])
        else
          (stc, ev0 ++ [.closeConn c, .dial false, .diag])
      else
        writePhase env st msg c 0 ev0

/-! ## Record builder and leveled entry points (logger.go 138-212, 346-354) -/

/-- Record construction of `sendMessage` (lines 347-352). -/
def mkMessage (st : LoggerState) (v : Sev) (text : String) (ck : Clock) :
    Message :=
  { timestamp := ck.format, application := st.application, level := v.str, message := text }

def sendMessageGo (env : SendEnv) (st : LoggerState) (v : Sev)
    (text : String) : LoggerState × List Ev :=
  sendGo env st (mkMessage st v text env.clock)

/-- One leveled emit call: the per-severity guard, then `sendMessage`,
then — for the Fatal variants only (lines 197-212) — `os.Exit(1)`.
`none` means the method returned at its guard without doing anything. -/
def emitGo (env : SendEnv) (st : LoggerState) (v : Sev) (text : String) :
    Option (LoggerState × List Ev) :=
  if methodEmits v st.level then
    let r := sendMessageGo env st v text
    some (r.1, r.2 ++ (if v = Sev.fatal then [Ev.procExit 1] else []))
  else
    none

/-! ## Constructor (logger.go lines 53-91) -/

/-- Constructor `New`: uppercase the level, set the one-minute timeout (line 71),
eagerly connect when no writer is set and a host is given (74-81), fail
construction if that dial fails (76-78), create `stopChan` (83).  The
multi-options arity error (59-60) is out of scope of the claims. -/
def newGo (env : SendEnv) (application lvl vectorHost : String)
    (vectorPort : Int) (writerSet alsoPrint : Bool) :
    Option (LoggerState × List Ev) :=
  let base : LoggerState :=
    { application := application
      level := lvl.toUpper
      vectorHost := vectorHost
      vectorPort := vectorPort
      writerSet := writerSet
      alsoPrintMessages := alsoPrint
      conn := none
      lastActivityTime := 0
      timeoutDuration := oneMinute
      stopChan := true
      nextId := 0
      closed := [] }
  if writerSet = false ∧ vectorHost ≠ "" then
    if env.dialOk 0 then
      some ({ base with conn := some 0, nextId := 1, lastActivityTime := env.now },
        [.dial true])
    else
      none
  else
    some (base, [])

/-! ## Idle monitor tick (logger.go lines 103-117, ticker branch 106-112) -/

/-- One ticker iteration of `manageConnection`, under the lock: if a live
handle exists and `time.Since(lastActivityTime) > TimeoutDuration`, close
it and null it (109-110); otherwise do nothing. -/
def monitorTickGo (now : Int) (st : LoggerState) : LoggerState × List Ev :=
  match st.conn with
  | some c =>
    if now - st.lastActivityTime > st.timeoutDuration then
      ({ st with conn := none, closed := c :: st.closed }, [.closeConn c])
    else
      (st, [])
  | none => (st, [])

/-! ## Close (logger.go lines 323-343) -/

/-- Method `Close`: under the lock, signal the monitor iff `stopChan` is still
non-nil and null it (328-331), join the monitor (334), clear the writer
(336), close and null the live handle and return its error (337-341),
else return nil (342).  `connCloseErr` is the oracle for the handle's
`Close()` error; the returned `Option Unit` is `some ()` for a non-nil
error. -/
def closeGo (connCloseErr : Bool) (st : LoggerState) :
    LoggerState × List Ev × Option Unit :=
  let p1 : LoggerState × List Ev :=
    if st.stopChan then ({ st with stopChan := false }, [Ev.stopSignal])
    else (st, [])
  let ev2 := p1.2 ++ [Ev.joinMonitor]
  let st2 := { p1.1 with writerSet := false }
  match st2.conn with
  | some c =>
    ({ st2 with conn := none, closed := c :: st2.closed },
      ev2 ++ [.closeConn c], if connCloseErr then some () else none)
  | none => (st2, ev2, none)

/-! ## Derived trace observations -/

def isDial : Ev → Bool
  | .dial _ => true
  | _ => false

def isNetWrite : Ev → Bool
  | .netWrite _ _ _ => true
  | _ => false

def countDials (tr : List Ev) : Nat :=
  tr.countP isDial

def countNetWrites (tr : List Ev) : Nat :=
  tr.countP isNetWrite

/-- A successful network I/O action (successful dial or successful
network write) — exactly the actions after which the source refreshes
`lastActivityTime`. -/
def netIOSuccess : Ev → Bool
  | .dial true => true
  | .netWrite _ _ true => true
  | _ => false

/-- Predicate `closeBeforeDial c tr` holds when no dial occurs in `tr` before a
close of handle `c` (vacuously when `tr` has no dial at all). -/
def closeBeforeDial (c : Nat) : List Ev → Bool
  | [] => true
  | .dial _ :: _ => false
  | .closeConn c' :: rest => if c' = c then true else closeBeforeDial c rest
  | _ :: rest => closeBeforeDial c rest

/-- The handle-ownership invariant of the model: every id ever closed was
allocated; every allocated id that has not been closed is exactly the one
in the `conn` field (so at most one live handle exists, and it is the
owned one); and the held id, if any, is allocated and not closed. -/
def handleInv (st : LoggerState) : Prop :=
  (∀ id', id' ∈ st.closed → id' < st.nextId) ∧
  (∀ id', id' < st.nextId → id' ∉ st.closed → st.conn = some id') ∧
  (∀ c, st.conn = some c → c < st.nextId ∧ c ∉ st.closed)

/-- The recovery tail required by the specification after a failed
network write: one fresh dial; on success one retry write of the freshly
serialized record on the new handle (`c2`), with a diagnostic and a
close of the new handle if the retry also fails; on dial failure just a
diagnostic. -/
def recoverySuffix (dialRetryOk retryWriteOk : Bool) (c2 : Nat)
    (payload : String) : List Ev :=
  if dialRetryOk then
    if retryWriteOk then [.dial true, .netWrite c2 payload true]
    else [.dial true, .netWrite c2 payload false, .diag, .closeConn c2]
  else [.dial false, .diag]

/-! ## Interleaving model of Close against the monitor goroutine

`Close` (logger.go 323-343) and `manageConnection` (94-118) synchronize
on the mutex `l.mu`, the channel `stopChan` and the wait group `l.wg`.
Each thread is reduced to the program points that touch those objects.

Closer (the thread running `Close`):
  `start`    — before `l.mu.Lock()` (line 324);
  `locked`   — holds the mutex, before `close(stopChan)` (line 329);
  `signaled` — has closed `stopChan`, blocked in `l.wg.Wait()` (line 334),
               still holding the mutex (the deferred unlock of line 325
               only runs when `Close` returns);
  `joined`   — `wg.Wait()` returned, before closing the handle (337-340);
  `ret`      — `Close` returned (mutex released by the defer).

Monitor (the goroutine running `manageConnection`):
  `sel`      — blocked in the `select` (line 104): the ticker fires every
               10 seconds, so the tick branch is always eventually
               enabled; the stop branch is enabled once `stopChan` is
               closed;
  `lockWait` — took the tick branch, blocked in `l.mu.Lock()` (106);
  `crit`     — holds the mutex (107-111);
  `done`     — returned (115), `wg.Done()` run by the defer (95). -/

inductive CloserPc where
  | start
  | locked
  | signaled
  | joined
  | ret
deriving DecidableEq

inductive MonitorPc where
  | sel
  | lockWait
  | crit
  | done
deriving DecidableEq

structure Sys where
  closer : CloserPc
  monitor : MonitorPc
  mutexByCloser : Bool
  mutexByMonitor : Bool
  stopClosed : Bool
deriving DecidableEq

def mutexFree (s : Sys) : Bool :=
  !s.mutexByCloser && !s.mutexByMonitor

/-- All states reachable from `s` in one step of either thread. -/
def sysNext (s : Sys) : List Sys :=
  (if s.closer = CloserPc.start ∧ mutexFree s then
    [{ s with closer := .locked, mutexByCloser := true }] else []) ++
  (if s.closer = CloserPc.locked then
    [{ s with closer := .signaled, stopClosed := true }] else []) ++
  (if s.closer = CloserPc.signaled ∧ s.monitor = MonitorPc.done then
    [{ s with closer := .joined }] else []) ++
  (if s.closer = CloserPc.joined then
    [{ s with closer := .ret, mutexByCloser := false }] else []) ++
  (if s.monitor = MonitorPc.sel then
    [{ s with monitor := .lockWait }] else []) ++
  (if s.monitor = MonitorPc.sel ∧ s.stopClosed then
    [{ s with monitor := .done }] else []) ++
  (if s.monitor = MonitorPc.lockWait ∧ mutexFree s then
    [{ s with monitor := .crit, mutexByMonitor := true }] else []) ++
  (if s.monitor = MonitorPc.crit then
    [{ s with monitor := .sel, mutexByMonitor := false }] else [])

/-- Initial state when `Close` is called: monitor in its select, mutex
free, `stopChan` open. -/
def sysInit : Sys :=
  { closer := .start, monitor := .sel, mutexByCloser := false,
    mutexByMonitor := false, stopClosed := false }

def SysStep (a b : Sys) : Prop :=
  b ∈ sysNext a

/-- Intermediate state: the monitor's ticker has fired and the monitor
is blocked acquiring the mutex; `Close` has not started. -/
def sysTicked : Sys :=
  { closer := .start, monitor := .lockWait, mutexByCloser := false,
    mutexByMonitor := false, stopClosed := false }

/-- Intermediate state: `Close` has acquired the mutex while the monitor
waits for it. -/
def sysClosing : Sys :=
  { closer := .locked, monitor := .lockWait, mutexByCloser := true,
    mutexByMonitor := false, stopClosed := false }

/-- The deadlocked state: `Close` holds the mutex inside `wg.Wait()`,
the monitor is blocked in `l.mu.Lock()` and can never take the stop
branch. -/
def sysDead : Sys :=
  { closer := .signaled, monitor := .lockWait, mutexByCloser := true,
    mutexByMonitor := false, stopClosed := true }

/-- The stdout-mirror prefix of every send trace. -/
def mirrorEv (b : Bool) : List Ev :=
  if b then [.stdout] else []

/-! ## Concrete fixtures used by witnesses -/

def clockW : Clock :=
  { year := 2025, month := 10, day := 11, hour := 12, minute := 0, sec := 0, ms := 125 }

def envW : SendEnv :=
  { now := 0, clock := clockW, dialOk := fun _ => true, writeOk := fun _ => true }

def envFailW : SendEnv :=
  { now := 0, clock := clockW, dialOk := fun _ => false, writeOk := fun _ => false }

/-- Oracle where every dial succeeds but every write fails. -/
def envWriteFailW : SendEnv :=
  { now := 0, clock := clockW, dialOk := fun _ => true, writeOk := fun _ => false }

def stW : LoggerState :=
  { application := "app", level := "INFO", vectorHost := "vh", vectorPort := 1
    , writerSet := false, alsoPrintMessages := false, conn := none
    , lastActivityTime := 0, timeoutDuration := oneMinute, stopChan := true
    , nextId := 0, closed := [] }

/-- A logger state holding a live handle, satisfying `handleInv`. -/
def stLiveW : LoggerState :=
  { stW with conn := some 0, nextId := 1 }

def msgW : Message :=
  { timestamp := "t", application := "app", level := "INFO", message := "m" }

/-- A logger state whose live handle has been idle longer than the
one-minute timeout (relative to `envW.now = 0`). -/
def stIdleW : LoggerState :=
  { stLiveW with lastActivityTime := -(oneMinute + 1) }

/-- Shape of the events a single `send` call can emit for a record
`msg`: console output, dials, closes, diagnostics, and writes that carry
exactly the fresh serialization of `msg`; never a stop signal, a join or
a process exit. -/
def evShape (msg : Message) : Ev → Bool
  | .stdout => true
  | .dial _ => true
  | .closeConn _ => true
  | .netWrite _ p _ => p == encodeMessage msg
  | .sinkWrite p _ => p == encodeMessage msg
  | .diag => true
  | .stopSignal => false
  | .joinMonitor => false
  | .procExit _ => false

end GoVectorLogger

namespace GoVectorLogger

/-! ## Helper lemmas -/

theorem hexDigit_ne_newline (n : Nat) : hexDigit n ≠ '\n' := by
  by_cases h : n < 16
  · interval_cases n <;> decide
  · have hlen : hexChars.length ≤ n := by
      have : hexChars.length = 16 := by decide
      omega
    simp only [hexDigit, List.getD_eq_default _ _ hlen]
    decide

theorem newline_not_in_escChar (c : Char) : '\n' ∉ escChar c := by
  unfold escChar
  split_ifs with h1 h2 h3 h4 h5 h6 h7 h8
  · decide
  · decide
  · decide
  · decide
  · decide
  · intro hmem
    simp only [List.mem_cons, List.not_mem_nil, or_false] at hmem
    rcases hmem with h | h | h | h | h | h
    · exact absurd h (by decide)
    · exact absurd h (by decide)
    · exact absurd h (by decide)
    · exact absurd h (by decide)
    · exact hexDigit_ne_newline _ h.symm
    · exact hexDigit_ne_newline _ h.symm
  · intro hmem
    simp only [List.mem_cons, List.not_mem_nil, or_false] at hmem
    rcases hmem with h | h | h | h | h | h
    · exact absurd h (by decide)
    · exact absurd h (by decide)
    · exact absurd h (by decide)
    · exact absurd h (by decide)
    · exact hexDigit_ne_newline _ h.symm
    · exact hexDigit_ne_newline _ h.symm
  · intro hmem
    simp only [List.mem_cons, List.not_mem_nil, or_false] at hmem
    rcases hmem with h | h | h | h | h | h
    · exact absurd h (by decide)
    · exact absurd h (by decide)
    · exact absurd h (by decide)
    · exact absurd h (by decide)
    · exact absurd h (by decide)
    · exact hexDigit_ne_newline _ h.symm
  · intro hmem
    simp only [List.mem_singleton] at hmem
    exact h3 hmem.symm

theorem newline_not_in_jsonEscapeList (s : List Char) :
    '\n' ∉ jsonEscapeList s := by
  induction s with
  | nil => simp [jsonEscapeList]
  | cons c rest ih =>
    simp only [jsonEscapeList, List.mem_append]
    rintro (h | h)
    · exact newline_not_in_escChar c h
    · exact ih h

@[simp]
theorem countDials_mirrorEv (b : Bool) : countDials (mirrorEv b) = 0 := by
  cases b <;> rfl

@[simp]
theorem countP_isDial_mirrorEv (b : Bool) :
    (mirrorEv b).countP isDial = 0 := by
  cases b <;> rfl

@[simp]
theorem countP_isNetWrite_mirrorEv (b : Bool) :
    (mirrorEv b).countP isNetWrite = 0 := by
  cases b <;> rfl

@[simp]
theorem any_netIOSuccess_mirrorEv (b : Bool) :
    (mirrorEv b).any netIOSuccess = false := by
  cases b <;> rfl

@[simp]
theorem countDials_append (l1 l2 : List Ev) :
    countDials (l1 ++ l2) = countDials l1 + countDials l2 := by
  simp [countDials, List.countP_append]

@[simp]
theorem countNetWrites_mirrorEv (b : Bool) :
    countNetWrites (mirrorEv b) = 0 := by
  cases b <;> rfl

@[simp]
theorem countNetWrites_append (l1 l2 : List Ev) :
    countNetWrites (l1 ++ l2) = countNetWrites l1 + countNetWrites l2 := by
  simp [countNetWrites, List.countP_append]

theorem mem_mirrorEv {x : Ev} {b : Bool} (h : x ∈ mirrorEv b) :
    x = Ev.stdout := by
  cases b
  · simp [mirrorEv] at h
  · simp [mirrorEv] at h
    exact h

theorem countDials_writePhase (env : SendEnv) (st : LoggerState)
    (msg : Message) (c d : Nat) (acc : List Ev) :
    countDials (writePhase env st msg c d acc).2 ≤ countDials acc + 1 := by
  unfold writePhase
  split_ifs <;>
    simp [countDials, List.countP_append, List.countP_cons, isDial]

theorem countNetWrites_writePhase (env : SendEnv) (st : LoggerState)
    (msg : Message) (c d : Nat) (acc : List Ev) :
    countNetWrites (writePhase env st msg c d acc).2 ≤
      countNetWrites acc + 2 := by
  unfold writePhase
  split_ifs <;>
    simp [countNetWrites, List.countP_append, List.countP_cons, isNetWrite]

/-- Decomposition of the write phase when the first write fails: the
failed write on handle `c`, its close, then exactly the recovery tail
(one fresh dial; on success one retry write of the freshly serialized
record on the new handle `st.nextId`; a diagnostic and close on further
failure; a diagnostic on dial failure). -/
theorem writePhase_fail_decomp (env : SendEnv) (st : LoggerState)
    (msg : Message) (c d : Nat) (acc : List Ev)
    (hfail : env.writeOk 0 = false) :
    (writePhase env st msg c d acc).2 =
      acc ++ [.netWrite c (encodeMessage msg) false, .closeConn c] ++
        recoverySuffix (env.dialOk d) (env.writeOk 1) st.nextId
          (encodeMessage msg) := by
  unfold writePhase recoverySuffix
  by_cases hd : env.dialOk d = true <;> by_cases hw1 : env.writeOk 1 = true <;>
    simp [hfail, hd, hw1]

/-- When the first write fails and the retry write (if reached) also
fails, the handle field ends nulled. -/
theorem writePhase_fail_conn (env : SendEnv) (st : LoggerState)
    (msg : Message) (c d : Nat) (acc : List Ev)
    (hfail : env.writeOk 0 = false) (hretry : env.writeOk 1 = false) :
    (writePhase env st msg c d acc).1.conn = none := by
  unfold writePhase
  by_cases hd : env.dialOk d = true <;> simp [hfail, hretry, hd]

/-- Everything a write-phase trace can contain beyond `acc`. -/
theorem mem_writePhase (env : SendEnv) (st : LoggerState) (msg : Message)
    (c d : Nat) (acc : List Ev) (x : Ev)
    (hx : x ∈ (writePhase env st msg c d acc).2) :
    x ∈ acc ∨ x = .netWrite c (encodeMessage msg) true ∨
    x = .netWrite c (encodeMessage msg) false ∨ x = .closeConn c ∨
    x = .dial true ∨ x = .dial false ∨ x = .diag ∨
    x = .netWrite st.nextId (encodeMessage msg) true ∨
    x = .netWrite st.nextId (encodeMessage msg) false ∨
    x = .closeConn st.nextId := by
  unfold writePhase at hx
  split_ifs at hx <;> simp at hx <;> tauto

/-- Value of `lastActivityTime` after the write phase: refreshed to `now` exactly
when the call's trace contains a successful dial or successful network
write. -/
theorem writePhase_lastActivity (env : SendEnv) (st : LoggerState)
    (msg : Message) (c d : Nat) (acc : List Ev)
    (hacc : acc.any netIOSuccess = true → st.lastActivityTime = env.now) :
    (writePhase env st msg c d acc).1.lastActivityTime =
      (if (writePhase env st msg c d acc).2.any netIOSuccess then env.now
       else st.lastActivityTime) := by
  by_cases h0 : env.writeOk 0 = true
  · simp [writePhase, h0, List.any_append, netIOSuccess]
  · by_cases hd : env.dialOk d = true
    · by_cases h1 : env.writeOk 1 = true
      · simp [writePhase, h0, hd, h1, List.any_append, netIOSuccess]
      · simp [writePhase, h0, hd, h1, List.any_append, netIOSuccess]
    · simp only [writePhase, h0, hd, Bool.false_eq_true, if_false,
        List.any_append, List.any_cons, List.any_nil]
      by_cases ha : acc.any netIOSuccess = true
      · simp [ha, hacc ha, netIOSuccess]
      · simp only [Bool.not_eq_true] at ha
        simp [ha, netIOSuccess]

/-- Equation restating `sendGo` with the mirror prefix named, for case analysis. -/
theorem sendGo_eq (env : SendEnv) (st : LoggerState) (msg : Message) :
    sendGo env st msg =
      (if st.writerSet then
        if env.writeOk 0 then
          (st, mirrorEv st.alsoPrintMessages ++ [.sinkWrite (encodeMessage msg) true])
        else
          (st, mirrorEv st.alsoPrintMessages ++ [.sinkWrite (encodeMessage msg) false, .diag])
      else if st.vectorHost = "" then
        (st, mirrorEv st.alsoPrintMessages)
      else
        match st.conn with
        | none =>
          if env.dialOk 0 then
            writePhase env
              { st with conn := some st.nextId, nextId := st.nextId + 1, lastActivityTime := env.now }
              msg st.nextId 1 (mirrorEv st.alsoPrintMessages ++ [.dial true])
          else
            (st, mirrorEv st.alsoPrintMessages ++ [.dial false, .diag])
        | some c =>
          if env.now - st.lastActivityTime > st.timeoutDuration then
            if env.dialOk 0 then
              writePhase env
                { st with conn := some st.nextId, nextId := st.nextId + 1, lastActivityTime := env.now, closed := c :: st.closed }
                msg st.nextId 1 (mirrorEv st.alsoPrintMessages ++ [.closeConn c, .dial true])
            else
              ({ st with conn := none, closed := c :: st.closed },
                mirrorEv st.alsoPrintMessages ++ [.closeConn c, .dial false, .diag])
          else
            writePhase env st msg c 0 (mirrorEv st.alsoPrintMessages)) := by
  rfl

/-- Every write-phase trace extends its accumulator. -/
theorem writePhase_trace_prefix (env : SendEnv) (st : LoggerState)
    (msg : Message) (c d : Nat) (acc : List Ev) :
    ∃ l, (writePhase env st msg c d acc).2 = acc ++ l := by
  unfold writePhase
  split_ifs <;> exact ⟨_, rfl⟩

/-- Every `send` call dials at most twice: at most once to ensure a live
connection and at most once more in the write-failure recovery. -/
theorem countDials_sendGo (env : SendEnv) (st : LoggerState)
    (msg : Message) : countDials (sendGo env st msg).2 ≤ 2 := by
  rw [sendGo_eq]
  cases hw : st.writerSet
  · by_cases hh : st.vectorHost = ""
    · simp [hh]
    · cases hc : st.conn
      · by_cases hd : env.dialOk 0 = true
        · simp only [hd, if_true, Bool.false_eq_true, if_false, hh]
          refine le_trans (countDials_writePhase _ _ _ _ _ _) ?_
          simp [countDials, List.countP_cons, List.countP_nil, isDial]
        · simp [hh, hd, countDials, List.countP_cons, List.countP_nil,
            isDial]
      · by_cases hid : env.now - st.lastActivityTime > st.timeoutDuration
        · by_cases hd : env.dialOk 0 = true
          · simp only [hd, hid, if_true, Bool.false_eq_true, if_false, hh]
            refine le_trans (countDials_writePhase _ _ _ _ _ _) ?_
            simp [countDials, List.countP_cons, List.countP_nil, isDial]
          · simp [hh, hid, hd, countDials, List.countP_cons,
              List.countP_nil, isDial]
        · simp only [hid, if_false, Bool.false_eq_true, hh]
          refine le_trans (countDials_writePhase _ _ _ _ _ _) ?_
          simp [countDials]
  · by_cases h0 : env.writeOk 0 = true <;>
      simp [h0, countDials, List.countP_cons, List.countP_nil, isDial]

/-- Every network write performed by `send` carries the full fresh
serialization of the record being sent. -/
theorem mem_sendGo_netWrite (env : SendEnv) (st : LoggerState)
    (msg : Message) (c : Nat) (p : String) (ok : Bool)
    (hmem : Ev.netWrite c p ok ∈ (sendGo env st msg).2) :
    p = encodeMessage msg := by
  rw [sendGo_eq] at hmem
  cases hw : st.writerSet <;> rw [hw] at hmem
  · by_cases hh : st.vectorHost = ""
    · rw [if_neg (by simp), if_pos hh] at hmem
      exact absurd (mem_mirrorEv hmem) (by simp)
    · rw [if_neg (by simp), if_neg hh] at hmem
      cases hc : st.conn <;> simp only [hc] at hmem
      · by_cases hd : env.dialOk 0 = true
        · rw [if_pos hd] at hmem
          rcases mem_writePhase _ _ _ _ _ _ _ hmem with
            h | h | h | h | h | h | h | h | h | h
          · rcases List.mem_append.mp h with h2 | h2
            · exact absurd (mem_mirrorEv h2) (by simp)
            · simp at h2
          all_goals first
            | (injection h with h1 h2 h3; try exact h2)
            | (exact absurd h (by simp))
        · rw [if_neg hd] at hmem
          rcases List.mem_append.mp hmem with h2 | h2
          · exact absurd (mem_mirrorEv h2) (by simp)
          · simp at h2
      · by_cases hid : env.now - st.lastActivityTime > st.timeoutDuration
        · by_cases hd : env.dialOk 0 = true
          · rw [if_pos hid, if_pos hd] at hmem
            rcases mem_writePhase _ _ _ _ _ _ _ hmem with
              h | h | h | h | h | h | h | h | h | h
            · rcases List.mem_append.mp h with h2 | h2
              · exact absurd (mem_mirrorEv h2) (by simp)
              · simp at h2
            all_goals first
              | (injection h with h1 h2 h3; try exact h2)
              | (exact absurd h (by simp))
          · rw [if_pos hid, if_neg hd] at hmem
            rcases List.mem_append.mp hmem with h2 | h2
            · exact absurd (mem_mirrorEv h2) (by simp)
            · simp at h2
        · rw [if_neg hid] at hmem
          rcases mem_writePhase _ _ _ _ _ _ _ hmem with
            h | h | h | h | h | h | h | h | h | h
          · exact absurd (mem_mirrorEv h) (by simp)
          all_goals first
            | (injection h with h1 h2 h3; try exact h2)
            | (exact absurd h (by simp))
  · by_cases h0 : env.writeOk 0 = true <;>
      [rw [if_pos rfl, if_pos h0] at hmem; rw [if_pos rfl, if_neg h0] at hmem] <;>
      · rcases List.mem_append.mp hmem with h2 | h2
        · exact absurd (mem_mirrorEv h2) (by simp)
        · simp at h2

/-! ## Claim C1 -/

/-- Claim C1 as stated is false on the code: with configured minimum
severity FATAL, an Info call still reaches `send` (the Info guard only
checks the configured level against ERROR and WARN), although
INFO < FATAL in the claimed order, so the claimed "emitted iff S ≥
configured minimum" equivalence fails at (minimum = FATAL, S = INFO). -/
theorem c1_level_filter_counterexample :
    ¬ (methodEmits Sev.info (Sev.str Sev.fatal) = true ↔
        sevIdx Sev.fatal ≤ sevIdx Sev.info) := by
  decide

/-- Claim C1, amended: for every configured minimum severity other than
FATAL, a record at severity S is handed to send iff S ≥ the minimum in
the order DEBUG < INFO < WARN < ERROR < FATAL, and a call strictly below
the minimum returns at its guard without invoking send (hence performs
no dial, no write and no sink call). -/
theorem c1_level_filter_amended (minSev v : Sev) (h : minSev ≠ Sev.fatal) :
    (methodEmits v (Sev.str minSev) = true ↔ sevIdx minSev ≤ sevIdx v) ∧
    (∀ env st text, st.level = Sev.str minSev → sevIdx v < sevIdx minSev →
      emitGo env st v text = none) := by
  constructor
  · revert h
    cases minSev <;> cases v <;> decide
  · intro env st text hlvl hlt
    have hg : methodEmits v st.level = false := by
      rw [hlvl]
      revert h hlt
      cases minSev <;> cases v <;> decide
    simp [emitGo, hg]

/-- Witness for the amended C1 at minimum = INFO, S = DEBUG,
on the concrete logger state `stW`. -/
theorem c1_level_filter_witness :
    (methodEmits Sev.debug (Sev.str Sev.info) = true ↔
      sevIdx Sev.info ≤ sevIdx Sev.debug) ∧
    emitGo envW stW Sev.debug "m" = none := by
  refine ⟨(c1_level_filter_amended Sev.info Sev.debug (by decide)).1, ?_⟩
  exact (c1_level_filter_amended Sev.info Sev.debug (by decide)).2
    envW stW "m" rfl (by decide)

/-! ## Claim C3 -/

/-- Claim C3 as stated is false on the code: the layout
"2006-01-02T15:04:05.00Z" keeps only two fractional-second digits, so
two UTC instants that differ at millisecond resolution (125 ms vs
129 ms into the second) are stamped with the identical timestamp — the
builder's resolution is a hundredth of a second, not a millisecond. -/
theorem c3_timestamp_counterexample :
    (mkMessage stW Sev.info "m"
        { clockW with ms := 125 }).timestamp =
      (mkMessage stW Sev.info "m" { clockW with ms := 129 }).timestamp ∧
    (125 : Nat) ≠ 129 := by
  exact ⟨rfl, by decide⟩

/-- Claim C3, amended: every built record carries the logger's fixed
application name, the requested severity and the final message text, and
a timestamp formatted from the current UTC clock by the fixed layout —
whose fractional part is the millisecond count truncated to hundredths
of a second (two digits), i.e. centisecond rather than millisecond
resolution. -/
theorem c3_timestamp_amended (st : LoggerState) (v : Sev) (text : String)
    (ck : Clock) :
    (mkMessage st v text ck).application = st.application ∧
    (mkMessage st v text ck).level = v.str ∧
    (mkMessage st v text ck).message = text ∧
    (mkMessage st v text ck).timestamp =
      formatTimestampMs ck.year ck.month ck.day ck.hour ck.minute ck.sec
        ck.ms ∧
    (∀ ms2, ms2 / 10 = ck.ms / 10 →
      formatTimestampMs ck.year ck.month ck.day ck.hour ck.minute ck.sec
          ms2 =
        (mkMessage st v text ck).timestamp) := by
  refine ⟨rfl, rfl, rfl, rfl, ?_⟩
  intro ms2 hq
  simp [mkMessage, Clock.format, formatTimestampMs, hq]

/-- Witness for the amended C3 at the concrete clock `clockW` and a
second reading inside the same hundredth of a second. -/
theorem c3_timestamp_witness :
    (mkMessage stW Sev.info "m" clockW).application = stW.application ∧
    formatTimestampMs clockW.year clockW.month clockW.day clockW.hour
        clockW.minute clockW.sec 129 =
      (mkMessage stW Sev.info "m" clockW).timestamp := by
  refine ⟨(c3_timestamp_amended stW Sev.info "m" clockW).1, ?_⟩
  exact (c3_timestamp_amended stW Sev.info "m" clockW).2.2.2.2 129 (by decide)

/-! ## Claim C8 -/

/-- Claim C8: a second `Close()` is a safe no-op — it does not signal the
already-signalled stop channel (which is nil by then), finds no live
handle (the first call already closed and nulled any), returns a nil
error, and leaves the state unchanged; this holds whatever error the
first call's `conn.Close()` returned. -/
theorem c8_close_idempotent (e1 e2 : Bool) (st : LoggerState) :
    Ev.stopSignal ∉ (closeGo e2 (closeGo e1 st).1).2.1 ∧
    (closeGo e2 (closeGo e1 st).1).2.2 = none ∧
    (closeGo e1 st).1.conn = none ∧
    (closeGo e2 (closeGo e1 st).1).1 = (closeGo e1 st).1 := by
  obtain ⟨a, l, vh, vp, ws, ap, cn, la, td, sc, ni, cl⟩ := st
  cases cn <;> cases sc <;>
    exact ⟨(by decide : Ev.stopSignal ∉ ([Ev.joinMonitor] : List Ev)),
      rfl, rfl, rfl⟩

/-! ## Claim C9 -/

/-- Claim C9 names spec behaviour the code does not deliver: `Close`
holds the mutex (the deferred unlock of logger.go:325) across
`wg.Wait()` (line 334), while the monitor's ticker branch blocks in
`l.mu.Lock()` (line 106) before it can re-reach the select that would
observe the closed stop channel.  From the initial state (monitor in its
select, mutex free, stop channel open) the interleaving "ticker fires;
Close locks the mutex; Close closes stopChan and enters wg.Wait()"
reaches a state with no enabled transition and `Close` not yet returned:
an unbounded block (deadlock), contradicting the claimed deterministic,
bounded stop. -/
theorem c9_close_monitor_deadlock :
    ∃ s : Sys, Relation.ReflTransGen SysStep sysInit s ∧
      sysNext s = [] ∧ s.closer ≠ CloserPc.ret := by
  refine ⟨sysDead, ?_, by decide, by decide⟩
  have h1 : SysStep sysInit sysTicked := by
    show sysTicked ∈ sysNext sysInit
    decide
  have h2 : SysStep sysTicked sysClosing := by
    show sysClosing ∈ sysNext sysTicked
    decide
  have h3 : SysStep sysClosing sysDead := by
    show sysDead ∈ sysNext sysClosing
    decide
  exact ((Relation.ReflTransGen.refl.tail h1).tail h2).tail h3

/-! ## Claim C5 -/

/-- Claim C5: after any `send` call, `lastActivityTime` equals the
current time exactly when the call's trace contains a successful network
write or a successful dial, and is otherwise unchanged (so failed writes
and failed dials never refresh it); the idle monitor's tick and `Close`
never touch it; and a constructed logger's `lastActivityTime` is the
construction time exactly when the eager connect dialed successfully
(and the zero value otherwise). -/
theorem c5_last_activity (env : SendEnv) (st : LoggerState) (msg : Message) :
    ((sendGo env st msg).1.lastActivityTime =
      (if (sendGo env st msg).2.any netIOSuccess then env.now
       else st.lastActivityTime)) ∧
    (∀ now', (monitorTickGo now' st).1.lastActivityTime =
      st.lastActivityTime) ∧
    (∀ e, (closeGo e st).1.lastActivityTime = st.lastActivityTime) ∧
    (∀ app lv vh vp w a out, newGo env app lv vh vp w a = some out →
      out.1.lastActivityTime =
        (if out.2.any netIOSuccess then env.now else 0)) := by
  refine ⟨?_, ?_, ?_, ?_⟩
  · rw [sendGo_eq]
    by_cases hw : st.writerSet = true
    · rw [if_pos hw]
      by_cases h0 : env.writeOk 0 = true <;>
        simp [h0, List.any_append, netIOSuccess]
    · rw [if_neg hw]
      by_cases hh : st.vectorHost = ""
      · rw [if_pos hh]
        simp
      · rw [if_neg hh]
        rcases hc : st.conn with _ | cval <;> dsimp only
        · by_cases hd : env.dialOk 0 = true
          · rw [if_pos hd,
              writePhase_lastActivity _ _ _ _ _ _ (fun _ => rfl)]
            obtain ⟨l, hl⟩ := writePhase_trace_prefix env
              { st with conn := some st.nextId, nextId := st.nextId + 1, lastActivityTime := env.now }
              msg st.nextId 1 (mirrorEv st.alsoPrintMessages ++ [Ev.dial true])
            rw [hl]
            simp [List.any_append, netIOSuccess]
          · rw [if_neg hd]
            simp [List.any_append, netIOSuccess]
        · by_cases hid : env.now - st.lastActivityTime > st.timeoutDuration
          · by_cases hd : env.dialOk 0 = true
            · rw [if_pos hid, if_pos hd,
                writePhase_lastActivity _ _ _ _ _ _ (fun _ => rfl)]
              obtain ⟨l, hl⟩ := writePhase_trace_prefix env
                { st with conn := some st.nextId, nextId := st.nextId + 1, lastActivityTime := env.now, closed := cval :: st.closed }
                msg st.nextId 1
                (mirrorEv st.alsoPrintMessages ++ [Ev.closeConn cval, Ev.dial true])
              rw [hl]
              simp [List.any_append, netIOSuccess]
            · rw [if_pos hid, if_neg hd]
              simp [List.any_append, netIOSuccess]
          · rw [if_neg hid, writePhase_lastActivity]
            intro ha
            simp at ha
  · intro now'
    unfold monitorTickGo
    rcases hc : st.conn with _ | cval
    · rfl
    · dsimp only
      split <;> rfl
  · intro e
    unfold closeGo
    cases hsc : st.stopChan <;> cases hcn : st.conn <;> simp [hsc, hcn]
  · intro app lv vh vp w a out hout
    unfold newGo at hout
    split_ifs at hout with h1 h2 <;>
      (cases hout; simp [netIOSuccess])

/-- Witness for C5: the successful first send on `stW` stamps
`lastActivityTime`, and the constructor's eager connect does too. -/
theorem c5_last_activity_witness :
    ((sendGo envW stW msgW).1.lastActivityTime =
      (if (sendGo envW stW msgW).2.any netIOSuccess then envW.now
       else stW.lastActivityTime)) ∧
    ∃ out, newGo envW "app" "info" "vh" 1 false false = some out ∧
      out.1.lastActivityTime =
        (if out.2.any netIOSuccess then envW.now else 0) := by
  refine ⟨(c5_last_activity envW stW msgW).1, ⟨_, rfl, ?_⟩⟩
  exact (c5_last_activity envW stW msgW).2.2.2 "app" "info" "vh" 1
    false false _ rfl

/-! ## Claim C2 -/

/-- Claim C2: in network mode, when the first write of the serialized
record fails, the trace decomposes as: everything before the write, the
failed write on the then-live handle, that handle's close, and the
recovery tail — exactly one fresh dial, and on its success exactly one
retry write carrying the freshly serialized record (every network write
in any send carries the full fresh serialization, never a
partially-consumed buffer), with close-and-null plus a diagnostic on any
further failure; and every send call dials at most twice (one ensure
dial plus the single recovery dial).  If the retry write fails (or is
never reached) the handle field ends nulled. -/
theorem c2_write_failure_recovery (env : SendEnv) (st : LoggerState)
    (msg : Message) (hw : st.writerSet = false)
    (hh : ¬ st.vectorHost = "") (hfail : env.writeOk 0 = false) :
    (∀ env2 st2 msg2, countDials (sendGo env2 st2 msg2).2 ≤ 2) ∧
    (∀ c p ok, Ev.netWrite c p ok ∈ (sendGo env st msg).2 →
      p = encodeMessage msg) ∧
    ((∀ c p ok, Ev.netWrite c p ok ∉ (sendGo env st msg).2) ∨
      ∃ pre c, (sendGo env st msg).2 =
        pre ++ [Ev.netWrite c (encodeMessage msg) false, Ev.closeConn c] ++
          recoverySuffix (env.dialOk (countDials pre)) (env.writeOk 1)
            (st.nextId + countDials pre) (encodeMessage msg)) ∧
    (env.writeOk 1 = false → (sendGo env st msg).1.conn = none) := by
  refine ⟨countDials_sendGo, fun c p ok h => mem_sendGo_netWrite _ _ _ _ _ _ h, ?_, ?_⟩
  · rw [sendGo_eq]
    rw [if_neg (by simp [hw]), if_neg hh]
    rcases hc : st.conn with _ | cval <;> dsimp only
    · by_cases hd : env.dialOk 0 = true
      · refine Or.inr ⟨mirrorEv st.alsoPrintMessages ++ [Ev.dial true],
          st.nextId, ?_⟩
        rw [if_pos hd, writePhase_fail_decomp _ _ _ _ _ _ hfail]
        simp [countDials, List.countP_append, List.countP_cons, isDial]
      · refine Or.inl fun c p ok => ?_
        rw [if_neg hd]
        intro hmem
        rcases List.mem_append.mp hmem with h2 | h2
        · exact absurd (mem_mirrorEv h2) (by simp)
        · simp at h2
    · by_cases hid : env.now - st.lastActivityTime > st.timeoutDuration
      · by_cases hd : env.dialOk 0 = true
        · refine Or.inr ⟨mirrorEv st.alsoPrintMessages ++
            [Ev.closeConn cval, Ev.dial true], st.nextId, ?_⟩
          rw [if_pos hid, if_pos hd, writePhase_fail_decomp _ _ _ _ _ _ hfail]
          simp [countDials, List.countP_append, List.countP_cons, isDial]
        · refine Or.inl fun c p ok => ?_
          rw [if_pos hid, if_neg hd]
          intro hmem
          rcases List.mem_append.mp hmem with h2 | h2
          · exact absurd (mem_mirrorEv h2) (by simp)
          · simp at h2
      · refine Or.inr ⟨mirrorEv st.alsoPrintMessages, cval, ?_⟩
        rw [if_neg hid, writePhase_fail_decomp _ _ _ _ _ _ hfail]
        simp
  · intro hretry
    rw [sendGo_eq]
    rw [if_neg (by simp [hw]), if_neg hh]
    rcases hc : st.conn with _ | cval <;> dsimp only
    · by_cases hd : env.dialOk 0 = true
      · rw [if_pos hd]
        exact writePhase_fail_conn _ _ _ _ _ _ hfail hretry
      · rw [if_neg hd]
        exact hc
    · by_cases hid : env.now - st.lastActivityTime > st.timeoutDuration
      · by_cases hd : env.dialOk 0 = true
        · rw [if_pos hid, if_pos hd]
          exact writePhase_fail_conn _ _ _ _ _ _ hfail hretry
        · rw [if_pos hid, if_neg hd]
      · rw [if_neg hid]
        exact writePhase_fail_conn _ _ _ _ _ _ hfail hretry

/-! ## Claim C4 -/

/-- The handle-ownership invariant only looks at `conn`, `nextId` and
`closed`. -/
theorem handleInv_congr (st st2 : LoggerState) (hinv : handleInv st)
    (hconn : st2.conn = st.conn) (hnext : st2.nextId = st.nextId)
    (hclosed : st2.closed = st.closed) : handleInv st2 := by
  obtain ⟨h0, h1, h2⟩ := hinv
  refine ⟨?_, ?_, ?_⟩
  · intro id' hid
    rw [hclosed] at hid
    rw [hnext]
    exact h0 id' hid
  · intro id' hlt hnot
    rw [hnext] at hlt
    rw [hclosed] at hnot
    rw [hconn]
    exact h1 id' hlt hnot
  · intro c' hc'
    rw [hconn] at hc'
    rw [hnext, hclosed]
    exact h2 c' hc'

/-- Closing and nulling the held handle preserves the handle-ownership
invariant. -/
theorem handleInv_close (st : LoggerState) (c : Nat) (hinv : handleInv st)
    (hc : st.conn = some c) :
    handleInv { st with conn := none, closed := c :: st.closed } := by
  obtain ⟨h0, h1, h2⟩ := hinv
  refine ⟨?_, ?_, ?_⟩
  · intro id' hid
    simp only [List.mem_cons] at hid
    rcases hid with hid2 | hid
    · rw [hid2]
      exact (h2 c hc).1
    · exact h0 id' hid
  · intro id' hlt hnot
    simp only [List.mem_cons, not_or] at hnot
    exfalso
    have heq := h1 id' hlt hnot.2
    rw [hc] at heq
    injection heq with heq2
    exact hnot.1 heq2.symm
  · intro c' hc'
    simp at hc'

/-- Allocating a fresh handle into an empty `conn` field preserves the
handle-ownership invariant. -/
theorem handleInv_dial (st : LoggerState) (t : Int) (hinv : handleInv st)
    (hc : st.conn = none) :
    handleInv { st with conn := some st.nextId, nextId := st.nextId + 1, lastActivityTime := t } := by
  obtain ⟨h0, h1, h2⟩ := hinv
  have hnotc : st.nextId ∉ st.closed := fun hmem =>
    lt_irrefl _ (h0 _ hmem)
  refine ⟨?_, ?_, ?_⟩
  · intro id' hid
    exact Nat.lt_succ_of_lt (h0 id' hid)
  · intro id' hlt hnot
    rcases Nat.lt_succ_iff_lt_or_eq.mp hlt with h | h
    · exact absurd (h1 id' h hnot) (by rw [hc]; simp)
    · rw [h]
  · intro c' hc'
    injection hc' with hc2
    rw [← hc2]
    exact ⟨Nat.lt_succ_self _, hnotc⟩

/-- The write phase preserves the handle-ownership invariant. -/
theorem writePhase_handleInv (env : SendEnv) (st : LoggerState)
    (msg : Message) (c d : Nat) (acc : List Ev) (hinv : handleInv st)
    (hc : st.conn = some c) :
    handleInv (writePhase env st msg c d acc).1 := by
  unfold writePhase
  by_cases h0 : env.writeOk 0 = true
  · rw [if_pos h0]
    exact hinv
  · rw [if_neg h0]
    by_cases hd : env.dialOk d = true
    · rw [if_pos hd]
      by_cases h1 : env.writeOk 1 = true
      · rw [if_pos h1]
        exact handleInv_dial _ env.now (handleInv_close st c hinv hc) rfl
      · rw [if_neg h1]
        exact handleInv_close _ _
          (handleInv_dial _ env.now (handleInv_close st c hinv hc) rfl) rfl
    · rw [if_neg hd]
      exact handleInv_close st c hinv hc

/-- Function `send` preserves the handle-ownership invariant. -/
theorem sendGo_handleInv (env : SendEnv) (st : LoggerState) (msg : Message)
    (hinv : handleInv st) : handleInv (sendGo env st msg).1 := by
  rw [sendGo_eq]
  by_cases hw : st.writerSet = true
  · rw [if_pos hw]
    by_cases h0 : env.writeOk 0 = true
    · rw [if_pos h0]
      exact hinv
    · rw [if_neg h0]
      exact hinv
  · rw [if_neg hw]
    by_cases hh : st.vectorHost = ""
    · rw [if_pos hh]
      exact hinv
    · rw [if_neg hh]
      rcases hc : st.conn with _ | cval <;> dsimp only
      · by_cases hd : env.dialOk 0 = true
        · rw [if_pos hd]
          exact writePhase_handleInv _ _ _ _ _ _
            (handleInv_dial st env.now hinv hc) rfl
        · rw [if_neg hd]
          exact hinv
      · by_cases hid : env.now - st.lastActivityTime > st.timeoutDuration
        · by_cases hd : env.dialOk 0 = true
          · rw [if_pos hid, if_pos hd]
            exact writePhase_handleInv _ _ _ _ _ _
              (handleInv_dial _ env.now (handleInv_close st cval hinv hc) rfl)
              rfl
          · rw [if_pos hid, if_neg hd]
            exact handleInv_close st cval hinv hc
        · rw [if_neg hid]
          exact writePhase_handleInv _ _ _ _ _ _ hinv hc

theorem closeBeforeDial_mirrorEv (c : Nat) (b : Bool) (l : List Ev) :
    closeBeforeDial c (mirrorEv b ++ l) = closeBeforeDial c l := by
  cases b <;> rfl

/-- In every `send` call starting with a live handle, that handle is
closed before any dial happens (or no dial happens at all). -/
theorem sendGo_closeBeforeDial (env : SendEnv) (st : LoggerState)
    (msg : Message) (c : Nat) (hc : st.conn = some c) :
    closeBeforeDial c (sendGo env st msg).2 = true := by
  rw [sendGo_eq]
  by_cases hw : st.writerSet = true
  · rw [if_pos hw]
    by_cases h0 : env.writeOk 0 = true
    · rw [if_pos h0]
      rw [closeBeforeDial_mirrorEv]
      rfl
    · rw [if_neg h0]
      rw [closeBeforeDial_mirrorEv]
      rfl
  · rw [if_neg hw]
    by_cases hh : st.vectorHost = ""
    · rw [if_pos hh]
      rw [← List.append_nil (mirrorEv st.alsoPrintMessages),
        closeBeforeDial_mirrorEv]
      rfl
    · rw [if_neg hh]
      rw [hc]
      dsimp only
      by_cases hid : env.now - st.lastActivityTime > st.timeoutDuration
      · by_cases hd : env.dialOk 0 = true
        · rw [if_pos hid, if_pos hd]
          obtain ⟨l, hl⟩ := writePhase_trace_prefix env
            { st with conn := some st.nextId, nextId := st.nextId + 1, lastActivityTime := env.now, closed := c :: st.closed }
            msg st.nextId 1
            (mirrorEv st.alsoPrintMessages ++ [Ev.closeConn c, Ev.dial true])
          rw [hl, List.append_assoc, closeBeforeDial_mirrorEv]
          simp [closeBeforeDial]
        · rw [if_pos hid, if_neg hd]
          rw [closeBeforeDial_mirrorEv]
          simp [closeBeforeDial]
      · rw [if_neg hid]
        unfold writePhase
        by_cases h0 : env.writeOk 0 = true
        · rw [if_pos h0]
          rw [closeBeforeDial_mirrorEv]
          rfl
        · rw [if_neg h0]
          by_cases hd : env.dialOk 0 = true
          · rw [if_pos hd]
            by_cases h1 : env.writeOk 1 = true
            · rw [if_pos h1]
              rw [closeBeforeDial_mirrorEv]
              simp [closeBeforeDial]
            · rw [if_neg h1]
              rw [closeBeforeDial_mirrorEv]
              simp [closeBeforeDial]
          · rw [if_neg hd]
            rw [closeBeforeDial_mirrorEv]
            simp [closeBeforeDial]

/-- Claim C4: the handle-ownership invariant — at most one live handle
per logger, namely the one in the `conn` field, every other allocated
handle having been closed — is established by the constructor and
preserved by `send`, by the idle monitor's tick and by `Close`; moreover
any `send` that dials first closes the handle it held on entry. -/
theorem c4_single_live_handle :
    (∀ env app lv vh vp w a out, newGo env app lv vh vp w a = some out →
      handleInv out.1) ∧
    (∀ env st msg, handleInv st → handleInv (sendGo env st msg).1) ∧
    (∀ now' st, handleInv st → handleInv (monitorTickGo now' st).1) ∧
    (∀ e st, handleInv st → handleInv (closeGo e st).1) ∧
    (∀ env st msg c, st.conn = some c →
      closeBeforeDial c (sendGo env st msg).2 = true) := by
  refine ⟨?_, sendGo_handleInv, ?_, ?_, sendGo_closeBeforeDial⟩
  · intro env app lv vh vp w a out hout
    unfold newGo at hout
    split_ifs at hout with h1 h2 <;> cases hout
    · refine ⟨?_, ?_, ?_⟩
      · intro id' hid
        simp at hid
      · intro id' hlt hnot
        have hlt2 : id' < 1 := hlt
        have h0 : id' = 0 := by omega
        rw [h0]
      · intro c' hc'
        have hc2 : some 0 = some c' := hc'
        injection hc2 with hc3
        rw [← hc3]
        exact ⟨(by omega : (0 : Nat) < 1), (by simp : (0 : Nat) ∉ ([] : List Nat))⟩
    · refine ⟨?_, ?_, ?_⟩
      · intro id' hid
        simp at hid
      · intro id' hlt hnot
        have hlt2 : id' < 0 := hlt
        exact absurd hlt2 (by omega)
      · intro c' hc'
        have hc2 : (none : Option Nat) = some c' := hc'
        cases hc2
  · intro now' st hinv
    unfold monitorTickGo
    rcases hc : st.conn with _ | cval <;> dsimp only
    · exact hinv
    · by_cases hid : now' - st.lastActivityTime > st.timeoutDuration
      · rw [if_pos hid]
        exact handleInv_close st cval hinv hc
      · rw [if_neg hid]
        exact hinv
  · intro e st hinv
    unfold closeGo
    by_cases hsc : st.stopChan = true <;>
      [rw [if_pos hsc]; rw [if_neg hsc]] <;>
      dsimp only <;>
      rcases hc : st.conn with _ | cval <;> dsimp only
    · exact handleInv_congr st _ hinv hc.symm rfl rfl
    · exact handleInv_close
        { st with stopChan := false, writerSet := false, conn := some cval }
        cval (handleInv_congr st _ hinv hc.symm rfl rfl) rfl
    · exact handleInv_congr st _ hinv hc.symm rfl rfl
    · exact handleInv_close
        { st with writerSet := false, conn := some cval }
        cval (handleInv_congr st _ hinv hc.symm rfl rfl) rfl

/-- Witness for C4 at the live-handle state `stLiveW`. -/
theorem c4_single_live_handle_witness :
    handleInv (sendGo envW stLiveW msgW).1 ∧
    closeBeforeDial 0 (sendGo envWriteFailW stLiveW msgW).2 = true := by
  have hinv : handleInv stLiveW := by
    refine ⟨?_, ?_, ?_⟩
    · intro id' hid
      simp [stLiveW, stW] at hid
    · intro id' hlt hnot
      have hlt2 : id' < 1 := hlt
      have h0 : id' = 0 := by omega
      rw [h0]
      rfl
    · intro c' hc'
      have hc2 : some 0 = some c' := hc'
      injection hc2 with hc3
      rw [← hc3]
      exact ⟨(by omega : (0 : Nat) < 1), (by simp : (0 : Nat) ∉ ([] : List Nat))⟩
  exact ⟨c4_single_live_handle.2.1 envW stLiveW msgW hinv,
    c4_single_live_handle.2.2.2.2 envWriteFailW stLiveW msgW 0 rfl⟩

/-- Witness for C2 on `stW` with an oracle whose dials succeed and whose
writes all fail: the dial bound holds and the handle ends nulled. -/
theorem c2_write_failure_recovery_witness :
    stW.writerSet = false ∧ (¬ stW.vectorHost = "") ∧
    envWriteFailW.writeOk 0 = false ∧
    countDials (sendGo envW stW msgW).2 ≤ 2 ∧
    (sendGo envWriteFailW stW msgW).1.conn = none := by
  have h := c2_write_failure_recovery envWriteFailW stW msgW rfl
    (by decide) rfl
  exact ⟨rfl, by decide, rfl, h.1 envW stW msgW, h.2.2.2 rfl⟩

/-! ## Trace-shape lemmas shared by C6, C7 and C10 -/

theorem evShape_mirror (msg : Message) (b : Bool) :
    ∀ y ∈ mirrorEv b, evShape msg y = true := fun y hy => by
  rw [mem_mirrorEv hy]
  rfl

theorem evShape_mirror_dial (msg : Message) (b ok : Bool) :
    ∀ y ∈ mirrorEv b ++ [Ev.dial ok], evShape msg y = true := by
  intro y hy
  rcases List.mem_append.mp hy with h | h
  · rw [mem_mirrorEv h]
    rfl
  · simp at h
    rw [h]
    rfl

theorem evShape_mirror_close_dial (msg : Message) (b : Bool) (c : Nat)
    (ok : Bool) :
    ∀ y ∈ mirrorEv b ++ [Ev.closeConn c, Ev.dial ok],
      evShape msg y = true := by
  intro y hy
  rcases List.mem_append.mp hy with h | h
  · rw [mem_mirrorEv h]
    rfl
  · simp at h
    rcases h with h | h <;> (rw [h]; rfl)

theorem writePhase_evShape (env : SendEnv) (st : LoggerState)
    (msg : Message) (c d : Nat) (acc : List Ev)
    (hacc : ∀ y ∈ acc, evShape msg y = true) (x : Ev)
    (hx : x ∈ (writePhase env st msg c d acc).2) :
    evShape msg x = true := by
  rcases mem_writePhase _ _ _ _ _ _ _ hx with
    h | h | h | h | h | h | h | h | h | h
  · exact hacc x h
  all_goals (rw [h]; simp [evShape])

/-- Every event a `send` call emits is of the expected shape: no stop
signal, no join, no process exit, and every write payload is the fresh
serialization of the record. -/
theorem sendGo_evShape (env : SendEnv) (st : LoggerState) (msg : Message)
    (x : Ev) (hx : x ∈ (sendGo env st msg).2) : evShape msg x = true := by
  rw [sendGo_eq] at hx
  by_cases hw : st.writerSet = true
  · rw [if_pos hw] at hx
    by_cases h0 : env.writeOk 0 = true
    · rw [if_pos h0] at hx
      rcases List.mem_append.mp hx with h | h
      · rw [mem_mirrorEv h]
        rfl
      · simp at h
        rw [h]
        simp [evShape]
    · rw [if_neg h0] at hx
      rcases List.mem_append.mp hx with h | h
      · rw [mem_mirrorEv h]
        rfl
      · simp at h
        rcases h with h | h
        · rw [h]
          simp [evShape]
        · rw [h]
          rfl
  · rw [if_neg hw] at hx
    by_cases hh : st.vectorHost = ""
    · rw [if_pos hh] at hx
      rw [mem_mirrorEv hx]
      rfl
    · rw [if_neg hh] at hx
      rcases hc : st.conn with _ | cval <;> simp only [hc] at hx
      · by_cases hd : env.dialOk 0 = true
        · rw [if_pos hd] at hx
          exact writePhase_evShape _ _ _ _ _ _
            (evShape_mirror_dial msg _ true) x hx
        · rw [if_neg hd] at hx
          rcases List.mem_append.mp hx with h | h
          · rw [mem_mirrorEv h]
            rfl
          · simp at h
            rcases h with h | h <;> (rw [h]; rfl)
      · by_cases hid : env.now - st.lastActivityTime > st.timeoutDuration
        · by_cases hd : env.dialOk 0 = true
          · rw [if_pos hid, if_pos hd] at hx
            exact writePhase_evShape _ _ _ _ _ _
              (evShape_mirror_close_dial msg _ cval true) x hx
          · rw [if_pos hid, if_neg hd] at hx
            rcases List.mem_append.mp hx with h | h
            · rw [mem_mirrorEv h]
              rfl
            · simp at h
              rcases h with h | h | h <;> (rw [h]; rfl)
        · rw [if_neg hid] at hx
          exact writePhase_evShape _ _ _ _ _ _ (evShape_mirror msg _) x hx

/-- Invariant-backed fact used by witnesses: a state with handle 0 live,
one id allocated, none closed, satisfies `handleInv`. -/
theorem handleInv_single (st : LoggerState) (hc : st.conn = some 0)
    (hn : st.nextId = 1) (hcl : st.closed = []) : handleInv st := by
  refine ⟨?_, ?_, ?_⟩
  · intro id' hid
    rw [hcl] at hid
    simp at hid
  · intro id' hlt hnot
    rw [hn] at hlt
    have h0 : id' = 0 := by omega
    rw [hc, h0]
  · intro c' hc'
    rw [hc] at hc'
    injection hc' with h2
    rw [hn, hcl, ← h2]
    exact ⟨by omega, by simp⟩

/-! ## Claim C6 -/

/-- Claim C6: an idle handle is never written to.  A network-mode `send`
that finds its live handle `c` idle past the timeout never emits a write
on `c`: it closes `c`, and any write it performs is on a freshly
allocated handle (id at least `nextId`).  The idle monitor's tick closes
and nulls exactly the idle live handle and does nothing otherwise, so
the next send lazily reconnects. -/
theorem c6_idle_never_written (env : SendEnv) (st : LoggerState)
    (msg : Message) (c : Nat) (hw : st.writerSet = false)
    (hh : ¬ st.vectorHost = "") (hc : st.conn = some c)
    (hinv : handleInv st)
    (hidle : env.now - st.lastActivityTime > st.timeoutDuration) :
    (∀ p ok, Ev.netWrite c p ok ∉ (sendGo env st msg).2) ∧
    Ev.closeConn c ∈ (sendGo env st msg).2 ∧
    (∀ c' p ok, Ev.netWrite c' p ok ∈ (sendGo env st msg).2 →
      st.nextId ≤ c') ∧
    (∀ now2 st2 c2, st2.conn = some c2 →
      now2 - st2.lastActivityTime > st2.timeoutDuration →
      monitorTickGo now2 st2 =
        ({ st2 with conn := none, closed := c2 :: st2.closed },
          [Ev.closeConn c2])) ∧
    (∀ now2 st2, ¬ (st2.conn ≠ none ∧
        now2 - st2.lastActivityTime > st2.timeoutDuration) →
      monitorTickGo now2 st2 = (st2, [])) := by
  have hlt : c < st.nextId := (hinv.2.2 c hc).1
  have hfresh : ∀ c' p ok,
      Ev.netWrite c' p ok ∈ (sendGo env st msg).2 → st.nextId ≤ c' := by
    intro c' p ok hmem
    rw [sendGo_eq, if_neg (by simp [hw]), if_neg hh] at hmem
    simp only [hc] at hmem
    rw [if_pos hidle] at hmem
    by_cases hd : env.dialOk 0 = true
    · rw [if_pos hd] at hmem
      rcases mem_writePhase _ _ _ _ _ _ _ hmem with
        h | h | h | h | h | h | h | h | h | h
      · rcases List.mem_append.mp h with h2 | h2
        · exact absurd (mem_mirrorEv h2) (by simp)
        · simp at h2
      · injection h with e1 e2 e3
        omega
      · injection h with e1 e2 e3
        omega
      · exact absurd h (by simp)
      · exact absurd h (by simp)
      · exact absurd h (by simp)
      · exact absurd h (by simp)
      · injection h with e1 e2 e3
        have e1b : c' = st.nextId + 1 := e1
        omega
      · injection h with e1 e2 e3
        have e1b : c' = st.nextId + 1 := e1
        omega
      · exact absurd h (by simp)
    · rw [if_neg hd] at hmem
      rcases List.mem_append.mp hmem with h2 | h2
      · exact absurd (mem_mirrorEv h2) (by simp)
      · simp at h2
  refine ⟨?_, ?_, hfresh, ?_, ?_⟩
  · intro p ok hmem
    have := hfresh c p ok hmem
    omega
  · rw [sendGo_eq, if_neg (by simp [hw]), if_neg hh]
    simp only [hc]
    rw [if_pos hidle]
    by_cases hd : env.dialOk 0 = true
    · rw [if_pos hd]
      obtain ⟨l, hl⟩ := writePhase_trace_prefix env
        { st with conn := some st.nextId, nextId := st.nextId + 1, lastActivityTime := env.now, closed := c :: st.closed }
        msg st.nextId 1
        (mirrorEv st.alsoPrintMessages ++ [Ev.closeConn c, Ev.dial true])
      rw [hl]
      simp
    · rw [if_neg hd]
      simp
  · intro now2 st2 c2 hc2 hid2
    unfold monitorTickGo
    simp only [hc2]
    rw [if_pos hid2]
  · intro now2 st2 hnot
    unfold monitorTickGo
    rcases hc2 : st2.conn with _ | c2
    · rfl
    · dsimp only
      have hni : ¬ (now2 - st2.lastActivityTime > st2.timeoutDuration) :=
        fun hid2 => hnot ⟨by simp [hc2], hid2⟩
      rw [if_neg hni]

/-- Witness for C6 on the idle state `stIdleW`: the send never writes to
the stale handle 0, closes it, and the monitor tick evicts it. -/
theorem c6_idle_never_written_witness :
    (Ev.netWrite 0 (encodeMessage msgW) true ∉ (sendGo envW stIdleW msgW).2) ∧
    Ev.closeConn 0 ∈ (sendGo envW stIdleW msgW).2 ∧
    monitorTickGo envW.now stIdleW =
      ({ stIdleW with conn := none, closed := [0] }, [Ev.closeConn 0]) := by
  have h := c6_idle_never_written envW stIdleW msgW 0 rfl (by decide) rfl
    (handleInv_single stIdleW rfl rfl rfl) (by decide)
  exact ⟨h.1 _ _, h.2.1, h.2.2.2.1 envW.now stIdleW 0 rfl (by decide)⟩

/-! ## Claim C7 -/

/-- Claim C7 as stated is false on the code: the process termination of
the FATAL methods is not surfaced as a signal the caller can act on —
`os.Exit(1)` runs inside the call itself, unconditionally: whether the
delivery attempt fully succeeds (`envW`) or every dial and write fails
(`envFailW`), the call's own effect trace ends with the process exit. -/
theorem c7_fatal_exit_counterexample :
    (∃ out, emitGo envW stW Sev.fatal "boom" = some out ∧
      out.2.getLast? = some (Ev.procExit 1)) ∧
    (∃ out, emitGo envFailW stW Sev.fatal "boom" = some out ∧
      out.2.getLast? = some (Ev.procExit 1)) := by
  exact ⟨⟨_, rfl, rfl⟩, ⟨_, rfl, rfl⟩⟩

/-- Claim C7, amended: only the FATAL-severity methods end the process —
no other emit method's trace contains a process exit, and no emit method
reports an error to its caller — and a FATAL call performs the exit
unconditionally (an `os.Exit(1)` inside the call, not a caller-actionable
signal), strictly after the whole delivery attempt: its trace is exactly
the sendMessage trace followed by the exit. -/
theorem c7_fatal_exit (env : SendEnv) (st : LoggerState) (text : String) :
    (∀ v out, v ≠ Sev.fatal → emitGo env st v text = some out →
      ∀ n, Ev.procExit n ∉ out.2) ∧
    (∀ out, emitGo env st Sev.fatal text = some out →
      out.2 = (sendMessageGo env st Sev.fatal text).2 ++ [Ev.procExit 1]) ∧
    (∃ out, emitGo env st Sev.fatal text = some out ∧
      Ev.procExit 1 ∈ out.2) := by
  refine ⟨?_, ?_, ?_⟩
  · intro v out hv hout n hmem
    unfold emitGo at hout
    rw [if_neg hv] at hout
    by_cases hg : methodEmits v st.level = true
    · rw [if_pos hg, Option.some.injEq] at hout
      subst hout
      simp only [List.append_nil] at hmem
      have hshape := sendGo_evShape env st (mkMessage st v text env.clock)
        _ hmem
      simp [evShape] at hshape
    · rw [if_neg hg] at hout
      cases hout
  · intro out hout
    have hout2 : some ((sendMessageGo env st Sev.fatal text).1,
        (sendMessageGo env st Sev.fatal text).2 ++ [Ev.procExit 1]) =
          some out := hout
    injection hout2 with h3
    rw [← h3]
  · refine ⟨_, rfl, ?_⟩
    simp

/-- Witness for the amended C7: an INFO emit contains no process exit,
and the FATAL trace is the delivery trace plus the exit. -/
theorem c7_fatal_exit_witness :
    (∃ out, emitGo envW stW Sev.info "m" = some out ∧
      Ev.procExit 1 ∉ out.2) ∧
    (∃ out2, emitGo envW stW Sev.fatal "m" = some out2 ∧
      out2.2 = (sendMessageGo envW stW Sev.fatal "m").2 ++ [Ev.procExit 1]) := by
  refine ⟨⟨_, rfl, ?_⟩, ⟨_, rfl, ?_⟩⟩
  · exact (c7_fatal_exit envW stW "m").1 Sev.info _ (by decide) rfl 1
  · exact (c7_fatal_exit envW stW "m").2.1 _ rfl

/-! ## Claim C10 -/

/-- Claim C10: every record written to the destination — network
connection or redirect sink — is the record's JSON object followed by
exactly one trailing newline byte appended by the encoder: the encoded
buffer ends in a newline, contains exactly one newline (the escaper
never lets a raw newline into the object), and every write event of a
send call carries exactly this buffer, so consecutive records on the
byte stream are newline-separated. -/
theorem c10_newline_framing :
    (∀ m : Message,
      encodeMessage m = ⟨encodeJSONObjectChars m ++ ['\n']⟩ ∧
      (encodeMessage m).data.count '\n' = 1 ∧
      (encodeMessage m).data.getLast? = some '\n') ∧
    (∀ env st msg c p ok, Ev.netWrite c p ok ∈ (sendGo env st msg).2 →
      p = encodeMessage msg) ∧
    (∀ env st msg p ok, Ev.sinkWrite p ok ∈ (sendGo env st msg).2 →
      p = encodeMessage msg) := by
  have hobj : ∀ m : Message, '\n' ∉ encodeJSONObjectChars m := by
    intro m
    unfold encodeJSONObjectChars
    intro h
    simp only [List.mem_append] at h
    rcases h with ((((((((h | h) | h) | h) | h) | h) | h) | h) | h)
    · exact absurd h (by decide)
    · exact newline_not_in_jsonEscapeList _ h
    · exact absurd h (by decide)
    · exact newline_not_in_jsonEscapeList _ h
    · exact absurd h (by decide)
    · exact newline_not_in_jsonEscapeList _ h
    · exact absurd h (by decide)
    · exact newline_not_in_jsonEscapeList _ h
    · exact absurd h (by decide)
  refine ⟨?_, fun env st msg c p ok h => mem_sendGo_netWrite _ _ _ _ _ _ h, ?_⟩
  · intro m
    refine ⟨rfl, ?_, List.getLast?_concat _⟩
    show (encodeJSONObjectChars m ++ ['\n']).count '\n' = 1
    rw [List.count_append, List.count_eq_zero_of_not_mem (hobj m)]
    rfl
  · intro env st msg p ok hmem
    have hshape := sendGo_evShape env st msg _ hmem
    simp only [evShape, beq_iff_eq] at hshape
    exact hshape

/-- Witness for C10 at the emitted record of a concrete successful send. -/
theorem c10_newline_framing_witness :
    (∃ p, Ev.netWrite 0 p true ∈ (sendGo envW stW msgW).2 ∧
      p = encodeMessage msgW) ∧
    (encodeMessage msgW).data.count '\n' = 1 := by
  have hmem : Ev.netWrite 0 (encodeMessage msgW) true ∈
      (sendGo envW stW msgW).2 :=
    List.Mem.tail _ (List.Mem.head _)
  exact ⟨⟨encodeMessage msgW, hmem,
      c10_newline_framing.2.1 envW stW msgW 0 _ true hmem⟩,
    (c10_newline_framing.1 msgW).2.1⟩

end GoVectorLogger
